import Mathlib

/-!
Shallow embedding of the UNGM tender pipeline (`src/scraper.py`, class
`UNGMScraper`) and proofs about the frozen claims.

Python dictionaries with the fixed key universe
{Title, Deadline, Published, Organization, Type, Reference, Country, Status,
Difficulty, URL, difficulty_score} are embedded as a structure whose fields
are `Option`-valued: `none` stands for an absent key, `some v` for a present
one.  Python's substring operator `in` is embedded as list-infix containment
on the strings' character lists; `str.strip` and `str.lower` as the
structural `pyStrip` and `pyLower` below.
-/

namespace UNGM

/-- Python `pat in hay` (case-sensitive substring containment). -/
def strContains (hay pat : String) : Prop := pat.data <:+: hay.data

instance strContainsDec (hay pat : String) : Decidable (strContains hay pat) :=
  List.decidableInfix pat.data hay.data

/-- Boolean form of `strContains`, used where the source uses `in` inside a
boolean expression. -/
def strContainsB (hay pat : String) : Bool := decide (strContains hay pat)

/-- Python `str.strip()`: drop whitespace from both ends.  Structural on the
character list so that the kernel can evaluate it on concrete inputs. -/
def pyStrip (s : String) : String :=
  ⟨(((s.data.dropWhile Char.isWhitespace).reverse).dropWhile Char.isWhitespace).reverse⟩

/-- Python `str.lower()` (the configured keywords and listing titles are
ASCII, where `Char.toLower` agrees with Python). -/
def pyLower (s : String) : String := ⟨s.data.map Char.toLower⟩

/-- An `<a>` tag as seen by the scraper: its text and optional `href`
attribute (`title_link.get('href', ...)`). -/
structure LinkTag where
  text : String
  href : Option String
  deriving DecidableEq, Repr

/-- A `<td>` cell: its text and the result of `cell.find('a')`
(`none` when the cell holds no anchor). -/
structure RawCell where
  text : String
  link : Option LinkTag
  deriving DecidableEq, Repr

/-- A `<tr>` raw row: its ordered list of `<td>` cells. -/
structure RawRow where
  cells : List RawCell
  deriving DecidableEq, Repr

/-- A tender record: the Python dict built in `search_tenders_selenium`
(keys Title .. URL) plus the `difficulty_score` column the ranker adds.
`TypeCol` embeds the key `'Type'` (`Type` is reserved in Lean). -/
structure TenderRec where
  Title : Option String
  Deadline : Option String
  Published : Option String
  Organization : Option String
  TypeCol : Option String
  Reference : Option String
  Country : Option String
  Status : Option String
  Difficulty : Option String
  URL : Option String
  difficulty_score : Option Nat
  deriving DecidableEq, Repr

/-- `self.search_terms` (scraper.py line 18). -/
def search_terms : List String := ["office furniture", "office supplies", "office chairs"]

/-- `easy_types` (scraper.py line 82). -/
def easy_types : List String := ["Request for quotation", "Invitation to bid"]

/-- `moderate_types` (scraper.py line 83). -/
def moderate_types : List String := ["Request for proposal"]

/-- `assess_difficulty` (scraper.py lines 78-89): case-sensitive substring
match against `easy_types`, then `moderate_types`, else `'Complex'`. -/
def assess_difficulty (tender_type : String) : String :=
  if easy_types.any (fun easy => strContainsB tender_type easy) then "Easy"
  else if moderate_types.any (fun m => strContainsB tender_type m) then "Moderate"
  else "Complex"

/-- The relevance test of scraper.py line 66:
`'office' in title.lower() or any(term in title.lower() for term in self.search_terms)`. -/
def relevanceGate (title : String) : Bool :=
  strContainsB (pyLower title) "office"
    || search_terms.any (fun term => strContainsB (pyLower title) term)

/-- Default cell for safe indexing (indices used by the source are guarded
either by `len(cells) >= 7` or by explicit `len(cells) > k` tests, so the
default is never read on the paths the source takes). -/
def emptyCell : RawCell := { text := "", link := none }

/-- The `tender_data` dict literal of scraper.py lines 54-65. -/
def buildTender (cells : List RawCell) (title_link : LinkTag) : TenderRec :=
  { Title := some (pyStrip title_link.text)
    Deadline := some (pyStrip (cells.getD 1 emptyCell).text)
    Published := some (pyStrip (cells.getD 2 emptyCell).text)
    Organization := some (if 3 < cells.length then pyStrip (cells.getD 3 emptyCell).text else "N/A")
    TypeCol := some (if 4 < cells.length then pyStrip (cells.getD 4 emptyCell).text else "N/A")
    Reference := some (if 5 < cells.length then pyStrip (cells.getD 5 emptyCell).text else "N/A")
    Country := some (if 6 < cells.length then pyStrip (cells.getD 6 emptyCell).text else "N/A")
    Status := some "Active"
    Difficulty := some (assess_difficulty (if 4 < cells.length then (cells.getD 4 emptyCell).text else ""))
    URL := some (title_link.href.getD "N/A")
    difficulty_score := none }

/-- The body of the row loop of `search_tenders_selenium`
(scraper.py lines 48-67): `some tender` when the row yields a tender dict
that is appended, `none` when the row is skipped. -/
def normalizeRow (row : RawRow) : Option TenderRec :=
  if 7 ≤ row.cells.length then
    match (row.cells.getD 0 emptyCell).link with
    | some title_link =>
      let tender_data := buildTender row.cells title_link
      if relevanceGate (tender_data.Title.getD "") then some tender_data else none
    | none => none
  else none

/-- `search_tenders_selenium` (scraper.py lines 21-76) restricted to its
decision logic: the fetched `<tr>` rows are the input, the list of appended
tender dicts the output. -/
def search_tenders_selenium (rows : List RawRow) : List TenderRec :=
  rows.filterMap normalizeRow

/-- `difficulty_order` (scraper.py line 99): the dict
`{'Easy': 1, 'Moderate': 2, 'Complex': 3}`; `none` embeds the NaN that
`Series.map` produces for a key outside the dict. -/
def difficulty_order (d : String) : Option Nat :=
  if d = "Easy" then some 1
  else if d = "Moderate" then some 2
  else if d = "Complex" then some 3
  else none

/-- `df['difficulty_score'] = df['Difficulty'].map(difficulty_order)`
(scraper.py line 100), applied to one record. -/
def addScore (t : TenderRec) : TenderRec :=
  { t with difficulty_score := t.Difficulty.bind difficulty_order }

/-- The sort key read by `df.sort_values('difficulty_score')`: a missing or
NaN score sorts after every mapped score (pandas puts NaN last), embedded as
the value 4, strictly above the mapped scores 1..3. -/
def scoreVal (t : TenderRec) : Nat := t.difficulty_score.getD 4

/-- The ascending comparison used by `sort_values('difficulty_score')`
(scraper.py line 101). -/
def scoreLEP (a b : TenderRec) : Prop := scoreVal a ≤ scoreVal b

instance scoreLEPDec : DecidableRel scoreLEP := fun _ _ => Nat.decLe _ _

instance scoreLEPTotal : IsTotal TenderRec scoreLEP := ⟨fun _ _ => Nat.le_total _ _⟩

instance scoreLEPTrans : IsTrans TenderRec scoreLEP := ⟨fun _ _ _ => Nat.le_trans⟩

/-- `filter_top_tenders` (scraper.py lines 91-102): on a non-empty input,
build the frame, add the `difficulty_score` column, sort by it, take the
first `limit` rows and return them as records (the added column included,
as `to_dict('records')` keeps every column of the frame).

The sort of line 101 is `df.sort_values('difficulty_score')` at its
default `kind='quicksort'`, which pandas documents as NOT stable: the
source guarantees sorting by the score but fixes no order among tied
records.  An executable definition must pick some concrete tie order, and
this embedding picks the insertion-sort (input) order; that choice is an
arbitrary representative, not a guarantee of the source, so only
tie-order-independent consequences of this definition — output length,
membership, score-sortedness — reflect the program's contract
(see `filter_top_tenders_tie_order_not_forced`). -/
def filter_top_tenders (tenders : List TenderRec) (limit : Nat) : List TenderRec :=
  if tenders.isEmpty then []
  else
    let df := tenders.map addScore
    let sorted := List.insertionSort scoreLEP df
    (sorted.take limit)

/-- One worksheet call made by `update_google_sheets`: the
`delete_rows(2, row_count)` clear, or one `append_row` with its cell
values. -/
inductive SheetOp where
  | clear : SheetOp
  | append : List String → SheetOp
  deriving DecidableEq, Repr

/-- The `append_row` argument list (scraper.py lines 120-131):
`tender.get(key, '')` for the ten keys in their fixed order. -/
def rowToFields (t : TenderRec) : List String :=
  [t.Title.getD "", t.Deadline.getD "", t.Published.getD "", t.Organization.getD "",
   t.TypeCol.getD "", t.Reference.getD "", t.Country.getD "", t.Status.getD "",
   t.Difficulty.getD "", t.URL.getD ""]

/-- The worksheet calls `update_google_sheets` makes when nothing raises
(scraper.py lines 114-131): one clear when data rows exist
(`row_count > 1`), then one append per tender, in order. -/
def plannedOps (rowCount : Nat) (tenders : List TenderRec) : List SheetOp :=
  (if rowCount > 1 then [SheetOp.clear] else [])
    ++ tenders.map (fun t => SheetOp.append (rowToFields t))

/-- Issue the planned calls in order against a remote store in which any
call may raise.  `oracle i` tells whether the `i`-th call succeeds; on the
first failing call nothing further is attempted and the result is the calls
that completed together with `false` (the `except` branch of scraper.py
lines 135-137). -/
def issueOps (oracle : Nat → Bool) : Nat → List SheetOp → List SheetOp × Bool
  | _, [] => ([], true)
  | i, op :: ops =>
    if oracle i then
      (op :: (issueOps oracle (i + 1) ops).1, (issueOps oracle (i + 1) ops).2)
    else
      ([], false)

/-- `update_google_sheets` (scraper.py lines 104-137): the trace of
worksheet calls that completed and the returned boolean (`true` from line
134, `false` from line 137). -/
def update_google_sheets (oracle : Nat → Bool) (rowCount : Nat)
    (tenders : List TenderRec) : List SheetOp × Bool :=
  issueOps oracle 0 (plannedOps rowCount tenders)

/-- `run` (scraper.py lines 139-163): fetch and normalize, return early on
an empty result (lines 150-152, a normal return), otherwise rank with
`limit=10` and reconcile.  Result: the store calls that were issued and the
number of tenders found (the count the run logs). -/
def run (oracle : Nat → Bool) (rowCount : Nat) (rows : List RawRow) :
    List SheetOp × Nat :=
  let tenders := search_tenders_selenium rows
  if tenders.isEmpty then ([], tenders.length)
  else
    let top_tenders := filter_top_tenders tenders 10
    ((update_google_sheets oracle rowCount top_tenders).1, tenders.length)

/-! ### Concrete fixtures used by examples, witnesses and counterexamples -/

/-- A classified tender as the normalizer emits it (all ten keys present,
no `difficulty_score` yet). -/
def mkTender (title diff : String) : TenderRec :=
  { Title := some title, Deadline := some "d", Published := some "p",
    Organization := some "org", TypeCol := some "ty", Reference := some "ref",
    Country := some "c", Status := some "Active", Difficulty := some diff,
    URL := some "u", difficulty_score := none }

def tC1 : TenderRec := mkTender "C1" "Complex"

def tE1 : TenderRec := mkTender "E1" "Easy"

def tM1 : TenderRec := mkTender "M1" "Moderate"

def tE2 : TenderRec := mkTender "E2" "Easy"

/-- The record whose every key is absent. -/
def blankTender : TenderRec :=
  { Title := none, Deadline := none, Published := none, Organization := none,
    TypeCol := none, Reference := none, Country := none, Status := none,
    Difficulty := none, URL := none, difficulty_score := none }

/-- A raw cell with plain text and no anchor. -/
def plainCell (s : String) : RawCell := { text := s, link := none }

/-- A seven-cell raw row whose first cell carries an anchor. -/
def mkRow (link : LinkTag) : RawRow :=
  { cells := { text := "t0", link := some link } ::
      [plainCell "t1", plainCell "t2", plainCell "t3",
       plainCell "Invitation to bid", plainCell "t5", plainCell "t6"] }

/-- Accepted row: seven cells, anchor with text and an href. -/
def rowGood : RawRow := mkRow { text := " Office chairs ", href := some "/n/1" }

/-- An anchor with no `href` attribute. -/
def linkNoHref : LinkTag := { text := "Office supplies", href := none }

/-- Accepted row whose anchor has no href. -/
def rowNoHref : RawRow := mkRow linkNoHref

/-- The tender `rowNoHref` normalizes to. -/
def tNoHref : TenderRec := buildTender rowNoHref.cells linkNoHref

/-- The tender `rowGood` normalizes to. -/
def tGood : TenderRec :=
  { Title := some "Office chairs", Deadline := some "t1", Published := some "t2",
    Organization := some "t3", TypeCol := some "Invitation to bid",
    Reference := some "t5", Country := some "t6", Status := some "Active",
    Difficulty := some "Easy", URL := some "/n/1", difficulty_score := none }

example : normalizeRow rowGood = some tGood := by decide

example : (normalizeRow rowNoHref).map TenderRec.URL = some (some "N/A") := by decide

/-! ### Shared helper lemmas -/

theorem buildTender_Title (cells : List RawCell) (link : LinkTag) :
    (buildTender cells link).Title = some (pyStrip link.text) := rfl

theorem relevanceGate_iff {title : String} :
    relevanceGate title = true ↔
      strContains (pyLower title) "office" ∨
        ∃ term ∈ search_terms, strContains (pyLower title) term := by
  simp [relevanceGate, strContainsB, List.any_eq_true]

theorem relevanceGate_ne_empty {title : String} (h : relevanceGate title = true) :
    title ≠ "" := by
  intro h0
  rw [h0] at h
  exact absurd h (by decide)

/-- Which rows the normalizer turns into which tenders. -/
theorem normalizeRow_eq_some_iff {row : RawRow} {t : TenderRec} :
    normalizeRow row = some t ↔
      7 ≤ row.cells.length ∧
      ∃ link, (row.cells.getD 0 emptyCell).link = some link ∧
        relevanceGate (pyStrip link.text) = true ∧ t = buildTender row.cells link := by
  simp only [normalizeRow]
  split
  next hlen =>
    simp only [hlen, true_and]
    split
    next link heq =>
      rw [buildTender_Title, Option.getD_some]
      constructor
      · intro h
        by_cases hg : relevanceGate (pyStrip link.text) = true
        · rw [if_pos hg] at h
          exact ⟨link, heq, hg, (Option.some.inj h).symm⟩
        · rw [if_neg hg] at h
          exact absurd h (by simp)
      · rintro ⟨link', hl', hg, rfl⟩
        have hll : link' = link := by
          rw [heq] at hl'
          exact (Option.some.inj hl').symm
        subst hll
        rw [if_pos hg]
    next heq =>
      constructor
      · intro h
        exact absurd h (by simp)
      · rintro ⟨link', hl', -, -⟩
        rw [heq] at hl'
        exact absurd hl' (by simp)
  next hlen =>
    constructor
    · intro h
      exact absurd h (by simp)
    · rintro ⟨h7, -⟩
      exact absurd h7 hlen

theorem normalizeRow_none_of_short {row : RawRow} (h : row.cells.length < 7) :
    normalizeRow row = none := by
  cases hn : normalizeRow row with
  | none => rfl
  | some t =>
    obtain ⟨h7, -⟩ := normalizeRow_eq_some_iff.mp hn
    omega

/-! ### C2 -/

/-- C2: `assess_difficulty` is a total deterministic function from any text
into {Easy, Moderate, Complex}: case-sensitive substring containment, the
Easy list checked before the Moderate list, anything else (the empty text
included) classified Complex; with the four concrete classifications the
claim lists. -/
theorem assess_difficulty_spec (s : String) :
    (assess_difficulty s = "Easy" ↔ ∃ e ∈ easy_types, strContains s e)
    ∧ (assess_difficulty s = "Moderate" ↔
        (¬ ∃ e ∈ easy_types, strContains s e) ∧ ∃ m ∈ moderate_types, strContains s m)
    ∧ (assess_difficulty s = "Complex" ↔
        (¬ ∃ e ∈ easy_types, strContains s e) ∧ ¬ ∃ m ∈ moderate_types, strContains s m)
    ∧ (assess_difficulty s = "Easy" ∨ assess_difficulty s = "Moderate"
        ∨ assess_difficulty s = "Complex")
    ∧ assess_difficulty "Request for quotation" = "Easy"
    ∧ assess_difficulty "Invitation to bid" = "Easy"
    ∧ assess_difficulty "Request for proposal" = "Moderate"
    ∧ assess_difficulty "" = "Complex"
    ∧ assess_difficulty "Framework Agreement" = "Complex" := by
  have hE : (easy_types.any (fun easy => strContainsB s easy) = true)
      ↔ ∃ e ∈ easy_types, strContains s e := by
    simp [List.any_eq_true, strContainsB]
  have hM : (moderate_types.any (fun m => strContainsB s m) = true)
      ↔ ∃ m ∈ moderate_types, strContains s m := by
    simp [List.any_eq_true, strContainsB]
  by_cases he : easy_types.any (fun easy => strContainsB s easy) = true
  · have hv : assess_difficulty s = "Easy" := by
      simp [assess_difficulty, he]
    rw [hv]
    refine ⟨iff_of_true rfl (hE.mp he), iff_of_false (by decide) ?_,
      iff_of_false (by decide) ?_, Or.inl rfl, by decide, by decide, by decide,
      by decide, by decide⟩
    · rintro ⟨hne, -⟩
      exact hne (hE.mp he)
    · rintro ⟨hne, -⟩
      exact hne (hE.mp he)
  · by_cases hm : moderate_types.any (fun m => strContainsB s m) = true
    · have hv : assess_difficulty s = "Moderate" := by
        simp [assess_difficulty, he, hm]
      rw [hv]
      refine ⟨iff_of_false (by decide) ?_,
        iff_of_true rfl ⟨fun hx => he (hE.mpr hx), hM.mp hm⟩,
        iff_of_false (by decide) ?_, Or.inr (Or.inl rfl), by decide, by decide,
        by decide, by decide, by decide⟩
      · intro hx
        exact he (hE.mpr hx)
      · rintro ⟨-, hno⟩
        exact hno (hM.mp hm)
    · have hv : assess_difficulty s = "Complex" := by
        simp [assess_difficulty, he, hm]
      rw [hv]
      refine ⟨iff_of_false (by decide) ?_, iff_of_false (by decide) ?_,
        iff_of_true rfl ⟨fun hx => he (hE.mpr hx), fun hx => hm (hM.mpr hx)⟩,
        Or.inr (Or.inr rfl), by decide, by decide, by decide, by decide, by decide⟩
      · intro hx
        exact he (hE.mpr hx)
      · rintro ⟨-, hx⟩
        exact hm (hM.mpr hx)

/-! ### C10 -/

/-- Modelled from the claim's words, to be compared with `relevanceGate`:
the single test that the lowercased title contains "office". -/
def officeOnlyGate (title : String) : Bool := strContainsB (pyLower title) "office"

/-- C10: every configured search term contains "office", so the relevance
gate of scraper.py line 66 is equivalent to testing "office" against the
lowercased title; "office desk" passes although it matches no configured
term. -/
theorem relevanceGate_eq_officeOnlyGate (title : String) :
    relevanceGate title = officeOnlyGate title
    ∧ (∀ term ∈ search_terms, strContains term "office")
    ∧ relevanceGate "office desk" = true
    ∧ (∀ term ∈ search_terms, ¬ strContains (pyLower "office desk") term) := by
  refine ⟨?_, by decide, by decide, by decide⟩
  unfold relevanceGate officeOnlyGate
  cases hob : strContainsB (pyLower title) "office" with
  | true => simp
  | false =>
    simp only [Bool.false_or]
    by_contra hne
    have hx : search_terms.any (fun term => strContainsB (pyLower title) term) = true := by
      revert hne
      cases search_terms.any (fun term => strContainsB (pyLower title) term) <;> simp
    obtain ⟨term, hmem, hterm⟩ := List.any_eq_true.mp hx
    have hterm' : strContains (pyLower title) term := by
      simpa [strContainsB] using hterm
    have hoff : strContains term "office" := by
      have hm : term = "office furniture" ∨ term = "office supplies"
          ∨ term = "office chairs" := by
        simpa [search_terms] using hmem
      rcases hm with rfl | rfl | rfl <;> decide
    have hcontr : strContains (pyLower title) "office" :=
      List.IsInfix.trans hoff hterm'
    rw [show strContainsB (pyLower title) "office" = true by
      simpa [strContainsB] using hcontr] at hob
    cases hob

/-! ### C7 -/

/-- The keyword interests the spec configures: the hardcoded "office" test
of scraper.py line 66 folded with `search_terms` (spec section 9 folds both
into one list). -/
def keywordInterests : List String := "office" :: search_terms

/-- Case-insensitive occurrence of a keyword in a title. -/
def occursCI (kw title : String) : Prop := strContains (pyLower title) (pyLower kw)

theorem keywordInterests_lower (kw : String) (h : kw ∈ keywordInterests) :
    pyLower kw = kw := by
  have hm : kw = "office" ∨ kw = "office furniture" ∨ kw = "office supplies"
      ∨ kw = "office chairs" := by
    simpa [keywordInterests, search_terms] using h
  rcases hm with rfl | rfl | rfl | rfl <;> decide

/-- C7: a row whose title contains no configured keyword interest
(case-insensitively) yields no tender; a row passing the structural checks
whose title contains one is emitted. -/
theorem relevance_gate_filters (row : RawRow) :
    (∀ t, normalizeRow row = some t →
      ∃ kw ∈ keywordInterests, occursCI kw (t.Title.getD ""))
    ∧ (∀ link, 7 ≤ row.cells.length →
        (row.cells.getD 0 emptyCell).link = some link →
        (∃ kw ∈ keywordInterests, occursCI kw (pyStrip link.text)) →
        ∃ t, normalizeRow row = some t) := by
  constructor
  · intro t ht
    obtain ⟨h7, link, hl, hg, rfl⟩ := normalizeRow_eq_some_iff.mp ht
    rw [buildTender_Title, Option.getD_some]
    rcases relevanceGate_iff.mp hg with hoff | ⟨term, hmem, hterm⟩
    · refine ⟨"office", by simp [keywordInterests], ?_⟩
      unfold occursCI
      rw [show pyLower "office" = "office" from by decide]
      exact hoff
    · refine ⟨term, by simp [keywordInterests, hmem], ?_⟩
      unfold occursCI
      rw [keywordInterests_lower term (by simp [keywordInterests, hmem])]
      exact hterm
  · rintro link h7 hl ⟨kw, hkw, hci⟩
    refine ⟨buildTender row.cells link, normalizeRow_eq_some_iff.mpr ⟨h7, link, hl, ?_, rfl⟩⟩
    apply relevanceGate_iff.mpr
    unfold occursCI at hci
    rw [keywordInterests_lower kw hkw] at hci
    have hm : kw = "office" ∨ kw ∈ search_terms := by
      simpa [keywordInterests] using hkw
    rcases hm with rfl | hmem
    · exact Or.inl hci
    · exact Or.inr ⟨kw, hmem, hci⟩

/-! ### C5 -/

/-- C5: the normalizer emits a tender for a row only if the row has at
least 7 cells and its first cell carries an anchor with non-empty text;
rows with fewer than 7 cells, or no anchor in the first cell, or an anchor
whose text is empty, yield no tender. -/
theorem normalizer_structural_checks (row : RawRow) :
    (∀ t, normalizeRow row = some t →
      7 ≤ row.cells.length ∧
      ∃ link, (row.cells.getD 0 emptyCell).link = some link ∧
        link.text ≠ "" ∧ pyStrip link.text ≠ "")
    ∧ (row.cells.length < 7 → normalizeRow row = none)
    ∧ ((row.cells.getD 0 emptyCell).link = none → normalizeRow row = none)
    ∧ (∀ link, (row.cells.getD 0 emptyCell).link = some link → link.text = "" →
        normalizeRow row = none) := by
  refine ⟨?_, normalizeRow_none_of_short, ?_, ?_⟩
  · intro t ht
    obtain ⟨h7, link, hl, hg, -⟩ := normalizeRow_eq_some_iff.mp ht
    have hstrip : pyStrip link.text ≠ "" := relevanceGate_ne_empty hg
    refine ⟨h7, link, hl, ?_, hstrip⟩
    intro h0
    apply hstrip
    rw [h0]
    decide
  · intro hnone
    cases hn : normalizeRow row with
    | none => rfl
    | some t =>
      obtain ⟨-, link, hl, -, -⟩ := normalizeRow_eq_some_iff.mp hn
      rw [hnone] at hl
      exact absurd hl (by simp)
  · intro link hl h0
    cases hn : normalizeRow row with
    | none => rfl
    | some t =>
      obtain ⟨-, link', hl', hg, -⟩ := normalizeRow_eq_some_iff.mp hn
      rw [hl] at hl'
      have : link' = link := (Option.some.inj hl').symm
      subst this
      rw [h0] at hg
      exact absurd hg (by decide)

/-! ### C6 -/

/-- C6 counterexample: the normalizer does emit a tender for a row whose
anchor lacks an href, but the sentinel it writes is "N/A", not "unknown". -/
theorem normalizer_sentinel_not_unknown :
    (normalizeRow rowNoHref).map TenderRec.URL = some (some "N/A")
    ∧ (normalizeRow rowNoHref).map TenderRec.URL ≠ some (some "unknown") := by
  decide

/-- C6 (amended): for an accepted raw row, the only reachable
missing-source case is the first-cell anchor lacking an href, and there the
URL field gets the sentinel "N/A" (not "unknown") without failing; the
positional fields Organization/Type/Reference/Country always read their
cells, because acceptance guarantees at least 7 cells. -/
theorem normalizer_missing_value_sentinels (row : RawRow) (t : TenderRec)
    (link : LinkTag) (h : normalizeRow row = some t)
    (hl : (row.cells.getD 0 emptyCell).link = some link)
    (hh : link.href = none) :
    t.URL = some "N/A"
    ∧ t.Organization = some (pyStrip (row.cells.getD 3 emptyCell).text)
    ∧ t.TypeCol = some (pyStrip (row.cells.getD 4 emptyCell).text)
    ∧ t.Reference = some (pyStrip (row.cells.getD 5 emptyCell).text)
    ∧ t.Country = some (pyStrip (row.cells.getD 6 emptyCell).text) := by
  obtain ⟨h7, link', hl', hg, rfl⟩ := normalizeRow_eq_some_iff.mp h
  rw [hl] at hl'
  have hle : link' = link := (Option.some.inj hl').symm
  subst hle
  have h3 : 3 < row.cells.length := by omega
  have h4 : 4 < row.cells.length := by omega
  have h5 : 5 < row.cells.length := by omega
  have h6 : 6 < row.cells.length := by omega
  refine ⟨?_, ?_, ?_, ?_, ?_⟩ <;> simp [buildTender, hh, h3, h4, h5, h6]

/-- C6 witness: the amended theorem applied to the concrete no-href row. -/
theorem normalizer_missing_value_sentinels_witness :
    tNoHref.URL = some "N/A"
    ∧ tNoHref.Organization = some (pyStrip (rowNoHref.cells.getD 3 emptyCell).text)
    ∧ tNoHref.TypeCol = some (pyStrip (rowNoHref.cells.getD 4 emptyCell).text)
    ∧ tNoHref.Reference = some (pyStrip (rowNoHref.cells.getD 5 emptyCell).text)
    ∧ tNoHref.Country = some (pyStrip (rowNoHref.cells.getD 6 emptyCell).text) :=
  normalizer_missing_value_sentinels rowNoHref tNoHref linkNoHref (by decide)
    (by decide) rfl

/-! ### C1, C9 -/

theorem filter_top_tenders_eq (tenders : List TenderRec) (limit : Nat) :
    filter_top_tenders tenders limit
      = (List.insertionSort scoreLEP (tenders.map addScore)).take limit := by
  cases tenders with
  | nil => simp [filter_top_tenders]
  | cons a l => simp [filter_top_tenders]

/-- A failing input for the stability claim: 18 classified tenders of
which 17 are tied at difficulty Easy.  pandas' default `kind='quicksort'`
(numpy introsort) insertion-sorts partitions of at most 16 elements and
quicksort-partitions larger ones, so above 16 tied keys it gives no
tie-order guarantee at all. -/
def failingTiesEasy : List TenderRec :=
  [mkTender "E1" "Easy", mkTender "E2" "Easy", mkTender "E3" "Easy",
   mkTender "E4" "Easy", mkTender "E5" "Easy", mkTender "E6" "Easy",
   mkTender "E7" "Easy", mkTender "E8" "Easy", mkTender "E9" "Easy",
   mkTender "E10" "Easy", mkTender "E11" "Easy", mkTender "E12" "Easy",
   mkTender "E13" "Easy", mkTender "E14" "Easy", mkTender "E15" "Easy",
   mkTender "E16" "Easy", mkTender "E17" "Easy"]

def failingTies : List TenderRec := mkTender "C0" "Complex" :: failingTiesEasy

/-- The same records in another admissible sorted order: the first two
tied Easy tenders swapped. -/
def otherTieOrder : List TenderRec :=
  ((mkTender "E2" "Easy" :: mkTender "E1" "Easy" :: failingTiesEasy.drop 2)
    ++ [mkTender "C0" "Complex"]).map addScore

/-- C1 (code-bug evidence): at the failing input, sorting on
`difficulty_score` alone does not determine the output — `otherTieOrder`
holds the same records and is also sorted ascending by the score, yet
differs from the embedded output.  The source's `sort_values` at its
default non-stable `kind='quicksort'` guarantees no more than the score
ordering, so the stable tie order the claim requires (equal-difficulty
tenders in input order) is not established by line 101; it would need
`kind='stable'`. -/
theorem filter_top_tenders_tie_order_not_forced :
    otherTieOrder ≠ filter_top_tenders failingTies 18
    ∧ List.Perm otherTieOrder (filter_top_tenders failingTies 18)
    ∧ List.Pairwise scoreLEP otherTieOrder
    ∧ List.Pairwise scoreLEP (filter_top_tenders failingTies 18)
    ∧ List.Perm (filter_top_tenders failingTies 18) (failingTies.map addScore) := by
  decide

/-- Field-for-field agreement on the ten Tender keys. -/
def sameTenderFields (r t : TenderRec) : Prop :=
  r.Title = t.Title ∧ r.Deadline = t.Deadline ∧ r.Published = t.Published
    ∧ r.Organization = t.Organization ∧ r.TypeCol = t.TypeCol
    ∧ r.Reference = t.Reference ∧ r.Country = t.Country ∧ r.Status = t.Status
    ∧ r.Difficulty = t.Difficulty ∧ r.URL = t.URL

/-- C9 counterexample: not every record of the ranker's output is
identical to an input record (the difficulty_score key is added). -/
theorem ranker_output_not_subset_input :
    ¬ (∀ r ∈ filter_top_tenders [tC1, tE1, tM1, tE2] 10,
        r ∈ [tC1, tE1, tM1, tE2]) := by
  decide

/-! ### Reconciler helper lemmas -/

theorem issueOps_cons_true {oracle : Nat → Bool} {i : Nat} {op : SheetOp}
    {ops : List SheetOp} (h : oracle i = true) :
    issueOps oracle i (op :: ops)
      = (op :: (issueOps oracle (i + 1) ops).1, (issueOps oracle (i + 1) ops).2) := by
  have h0 : issueOps oracle i (op :: ops)
      = if oracle i = true then
          (op :: (issueOps oracle (i + 1) ops).1, (issueOps oracle (i + 1) ops).2)
        else ([], false) := rfl
  rw [h0, if_pos h]

theorem issueOps_cons_false {oracle : Nat → Bool} {i : Nat} {op : SheetOp}
    {ops : List SheetOp} (h : oracle i = false) :
    issueOps oracle i (op :: ops) = ([], false) := by
  have h0 : issueOps oracle i (op :: ops)
      = if oracle i = true then
          (op :: (issueOps oracle (i + 1) ops).1, (issueOps oracle (i + 1) ops).2)
        else ([], false) := rfl
  rw [h0, if_neg (by simp [h])]

theorem issueOps_fst_app (oracle : Nat → Bool) (i : Nat) (ops : List SheetOp) :
    ∃ rest, (issueOps oracle i ops).1 ++ rest = ops := by
  induction ops generalizing i with
  | nil => exact ⟨[], rfl⟩
  | cons op ops ih =>
    by_cases h : oracle i = true
    · rw [issueOps_cons_true h]
      obtain ⟨rest, hr⟩ := ih (i + 1)
      exact ⟨rest, by simp [hr]⟩
    · rw [issueOps_cons_false (Bool.not_eq_true _ ▸ h)]
      exact ⟨op :: ops, by simp⟩

theorem issueOps_all_true {oracle : Nat → Bool} (h : ∀ i, oracle i = true)
    (i : Nat) (ops : List SheetOp) : issueOps oracle i ops = (ops, true) := by
  induction ops generalizing i with
  | nil => rfl
  | cons op ops ih =>
    rw [issueOps_cons_true (h i), ih (i + 1)]

theorem issueOps_snd_true_iff (oracle : Nat → Bool) (i : Nat)
    (ops : List SheetOp) :
    (issueOps oracle i ops).2 = true ↔ ∀ j < ops.length, oracle (i + j) = true := by
  induction ops generalizing i with
  | nil => simp [issueOps]
  | cons op ops ih =>
    by_cases h : oracle i = true
    · rw [issueOps_cons_true h]
      simp only [List.length_cons]
      rw [show (op :: (issueOps oracle (i + 1) ops).1,
          (issueOps oracle (i + 1) ops).2).2 = (issueOps oracle (i + 1) ops).2
        from rfl]
      rw [ih (i + 1)]
      constructor
      · intro hall j hj
        cases j with
        | zero => simpa using h
        | succ j =>
          have hjj : j < ops.length := by omega
          have := hall j hjj
          rw [show i + (j + 1) = i + 1 + j by omega]
          exact this
      · intro hall j hj
        have := hall (j + 1) (by omega)
        rw [show i + 1 + j = i + (j + 1) by omega]
        exact this
    · have hf : oracle i = false := Bool.not_eq_true _ ▸ h
      rw [issueOps_cons_false hf]
      constructor
      · intro hx
        exact absurd hx (by simp)
      · intro hall
        have := hall 0 (by simp)
        rw [Nat.add_zero] at this
        rw [this] at hf
        cases hf

theorem issueOps_first_fail (oracle : Nat → Bool) (i : Nat) (ops : List SheetOp)
    (k : Nat) (hk : k < ops.length) (hf : oracle (i + k) = false)
    (hok : ∀ j < k, oracle (i + j) = true) :
    issueOps oracle i ops = (ops.take k, false) := by
  induction ops generalizing i k with
  | nil => simp at hk
  | cons op ops ih =>
    cases k with
    | zero =>
      rw [Nat.add_zero] at hf
      rw [issueOps_cons_false hf]
      simp
    | succ k =>
      have h0 : oracle i = true := by
        have := hok 0 (Nat.succ_pos k)
        rwa [Nat.add_zero] at this
      rw [issueOps_cons_true h0]
      have hrec : issueOps oracle (i + 1) ops = (ops.take k, false) := by
        refine ih (i + 1) k (by simpa using Nat.lt_of_succ_lt_succ hk) ?_ ?_
        · rw [show i + 1 + k = i + (k + 1) by omega]
          exact hf
        · intro j hj
          rw [show i + 1 + j = i + (j + 1) by omega]
          exact hok (j + 1) (by omega)
      rw [hrec]
      simp

/-! ### C9 -/

/-- C9 (amended): ranking and reconciliation never alter the ten Tender
fields: every record of the ranker's output agrees field-for-field on all
ten keys with one of its input records (it is that record with the
difficulty_score key added), and reconciliation only reads records — every
issued call is the clear or the pure ten-field projection of one input
record. -/
theorem pipeline_preserves_fields (tenders : List TenderRec) (limit : Nat) :
    (∀ r ∈ filter_top_tenders tenders limit, ∃ t ∈ tenders,
        r = addScore t ∧ sameTenderFields r t)
    ∧ (∀ (oracle : Nat → Bool) (rowCount : Nat),
        ∀ op ∈ (update_google_sheets oracle rowCount tenders).1,
          op = SheetOp.clear ∨ ∃ t ∈ tenders, op = SheetOp.append (rowToFields t)) := by
  constructor
  · intro r hr
    rw [filter_top_tenders_eq] at hr
    have h1 : r ∈ List.insertionSort scoreLEP (tenders.map addScore) :=
      List.mem_of_mem_take hr
    have h2 : r ∈ tenders.map addScore :=
      (List.perm_insertionSort scoreLEP (tenders.map addScore)).mem_iff.mp h1
    obtain ⟨t, ht, rfl⟩ := List.mem_map.mp h2
    exact ⟨t, ht, rfl, by simp [addScore, sameTenderFields]⟩
  · intro oracle rowCount op hop
    obtain ⟨rest, hrest⟩ := issueOps_fst_app oracle 0 (plannedOps rowCount tenders)
    have hmem : op ∈ plannedOps rowCount tenders := by
      rw [← hrest]
      exact List.mem_append_left _ hop
    unfold plannedOps at hmem
    rw [List.mem_append] at hmem
    rcases hmem with hcl | hap
    · left
      by_cases h : rowCount > 1
      · rw [if_pos h] at hcl
        simpa using hcl
      · rw [if_neg h] at hcl
        exact absurd hcl (by simp)
    · right
      obtain ⟨t, ht, rfl⟩ := List.mem_map.mp hap
      exact ⟨t, ht, rfl⟩

/-! ### C3 -/

/-- Is this worksheet call the clear? -/
def isClearOp : SheetOp → Bool
  | SheetOp.clear => true
  | SheetOp.append _ => false

/-- The cell values of an append call. -/
def appendedFields : SheetOp → Option (List String)
  | SheetOp.clear => none
  | SheetOp.append fields => some fields

/-- C3: when no store call fails, reconciling N tenders issues exactly one
clear (when prior data rows exist, i.e. `row_count > 1`) followed by
exactly one append per tender, in shortlist order, each carrying exactly
the 10 fields in the fixed order, with an absent field rendered as "". -/
theorem update_google_sheets_success (oracle : Nat → Bool) (rowCount : Nat)
    (tenders : List TenderRec) (hok : ∀ i, oracle i = true) :
    update_google_sheets oracle rowCount tenders
      = ((if rowCount > 1 then [SheetOp.clear] else [])
          ++ tenders.map (fun t => SheetOp.append (rowToFields t)), true)
    ∧ ((update_google_sheets oracle rowCount tenders).1.filter isClearOp).length
        = (if rowCount > 1 then 1 else 0)
    ∧ (update_google_sheets oracle rowCount tenders).1.filterMap appendedFields
        = tenders.map rowToFields
    ∧ (∀ t : TenderRec, (rowToFields t).length = 10)
    ∧ rowToFields blankTender = List.replicate 10 "" := by
  have he : update_google_sheets oracle rowCount tenders
      = (plannedOps rowCount tenders, true) := by
    unfold update_google_sheets
    exact issueOps_all_true hok 0 _
  have hfc : ∀ ts : List TenderRec,
      (ts.map (fun t => SheetOp.append (rowToFields t))).filter isClearOp = [] := by
    intro ts
    induction ts with
    | nil => rfl
    | cons t ts ih => simp [isClearOp, ih]
  have hfm : ∀ ts : List TenderRec,
      (ts.map (fun t => SheetOp.append (rowToFields t))).filterMap appendedFields
        = ts.map rowToFields := by
    intro ts
    induction ts with
    | nil => rfl
    | cons t ts ih => simp [appendedFields, ih]
  refine ⟨by rw [he]; rfl, ?_, ?_, fun t => rfl, by decide⟩
  · rw [he]
    show ((plannedOps rowCount tenders).filter isClearOp).length = _
    unfold plannedOps
    rw [List.filter_append, hfc]
    by_cases h : rowCount > 1
    · rw [if_pos h, if_pos h]
      simp [isClearOp]
    · rw [if_neg h, if_neg h]
      simp
  · rw [he]
    show (plannedOps rowCount tenders).filterMap appendedFields = _
    unfold plannedOps
    rw [List.filterMap_append, hfm]
    by_cases h : rowCount > 1
    · rw [if_pos h]
      simp [appendedFields]
    · rw [if_neg h]
      simp

/-- C3 witness: the success contract at a concrete oracle, row count and
shortlist. -/
theorem update_google_sheets_success_witness :
    update_google_sheets (fun _ => true) 5 [tGood]
      = ((if 5 > 1 then [SheetOp.clear] else [])
          ++ [tGood].map (fun t => SheetOp.append (rowToFields t)), true)
    ∧ ((update_google_sheets (fun _ => true) 5 [tGood]).1.filter isClearOp).length
        = (if 5 > 1 then 1 else 0)
    ∧ (update_google_sheets (fun _ => true) 5 [tGood]).1.filterMap appendedFields
        = [tGood].map rowToFields
    ∧ (∀ t : TenderRec, (rowToFields t).length = 10)
    ∧ rowToFields blankTender = List.replicate 10 "" :=
  update_google_sheets_success (fun _ => true) 5 [tGood] (fun _ => rfl)

/-! ### C8 -/

/-- C8: a failing store call makes `update_google_sheets` attempt no
further calls and return `false` instead of raising; the issued calls are a
prefix of the planned ones (the partial state stands, nothing is rolled
back); it returns `true` exactly when every planned call succeeds. -/
theorem update_google_sheets_failure_contract (oracle : Nat → Bool)
    (rowCount : Nat) (tenders : List TenderRec) :
    (∃ rest, (update_google_sheets oracle rowCount tenders).1 ++ rest
        = plannedOps rowCount tenders)
    ∧ ((update_google_sheets oracle rowCount tenders).2 = true ↔
        ∀ j < (plannedOps rowCount tenders).length, oracle j = true)
    ∧ (∀ k < (plannedOps rowCount tenders).length, oracle k = false →
        (∀ j < k, oracle j = true) →
        update_google_sheets oracle rowCount tenders
          = ((plannedOps rowCount tenders).take k, false)) := by
  refine ⟨issueOps_fst_app oracle 0 _, ?_, ?_⟩
  · have := issueOps_snd_true_iff oracle 0 (plannedOps rowCount tenders)
    simpa using this
  · intro k hk hf hok
    have := issueOps_first_fail oracle 0 (plannedOps rowCount tenders) k hk
      (by simpa using hf) (by intro j hj; simpa using hok j hj)
    simpa using this

/-! ### C4 -/

/-- C4: when fetch/normalize yields zero tenders, `run` issues no store
call at all (neither clear nor append) and ends normally with 0 tenders. -/
theorem run_skips_reconciler_on_empty (oracle : Nat → Bool) (rowCount : Nat)
    (rows : List RawRow) (h : search_tenders_selenium rows = []) :
    run oracle rowCount rows = ([], 0) := by
  simp [run, h]

/-- C4 witness: a fetch with no raw rows. -/
theorem run_skips_reconciler_on_empty_witness :
    run (fun _ => true) 5 [] = ([], 0) :=
  run_skips_reconciler_on_empty (fun _ => true) 5 [] rfl

end UNGM
